import Mathlib

/-!
Verification of the melonJS `AnimationSheet` animation controller
(`me.AnimationSheet` in the source excerpt).

The JavaScript object state is embedded shallowly:
* JS numbers that the controller manipulates (frame indices, durations,
  time deltas) are modelled as `Int`; JS `%` is truncating remainder,
  which on integers is `Int.tmod` (sign follows the dividend).
  The single divergence: JS `x % 0` is `NaN` while `Int.tmod x 0 = x`;
  this only arises for sequences with a stored `length` of `0`, where the
  JS code throws on the subsequent frame dereference — the model reports
  the same thrown error, so the stored-`idx` difference is unobservable
  through the API.
* JS object references are modelled with an explicit heap of animation
  sequences (`seqHeap`), addressed by allocation order; `anim` maps
  animation names to heap addresses and `current` holds the address of
  the active sequence, so aliasing between `this.current` and
  `this.anim[name]` is preserved.
* `undefined` array slots are `Option.none` (frame arrays hold
  `Option FrameDescriptor`), and JS exceptions are surfaced as explicit
  error results, with all mutations performed before the throw kept.
-/

namespace MelonAnim

/-- A texture-atlas frame region: `offset`, `width`, `height`, `angle`
as consumed by `setAnimationFrame` (lines 235-238 of the source). -/
structure FrameDescriptor where
  offset : Int × Int
  width : Int
  height : Int
  angle : Int
deriving DecidableEq, Repr

/-- An entry of the `index` array passed to `addAnimation`: either a
numeric sprite index or a frame name. -/
inductive FrameRef where
  | num (n : Int)
  | str (s : String)
deriving DecidableEq, Repr

/-- Whether the reference is a frame-name string. -/
def FrameRef.isStr : FrameRef → Bool
  | .num _ => false
  | .str _ => true

/-- The `resetAnim` slot: `null`, an animation name to switch to on
loop, or a callback. The callback is modelled as a pure function of the
number of callback invocations made so far (the controller counts the
invocations in `cbCalls`), returning the JS return value coerced to
"is it `=== false`". -/
inductive ResetPolicy where
  | none
  | switchTo (name : String)
  | callback (f : Nat → Bool)

/-- Errors the controller can throw.  `notDefined` is the
`me.Renderable.Error` of `setCurrentAnimation`, `stringIndexUnsupported`
the one of `addAnimation`; `typeError` models a JS `TypeError` from
dereferencing `undefined` (e.g. a missing frame in
`setAnimationFrame`). -/
inductive AnimError where
  | notDefined (name : String)
  | stringIndexUnsupported
  | typeError
deriving DecidableEq, Repr

/-- One animation object as stored in `this.anim[name]`
(lines 121-128): frame array, cursor `idx`, cached `length`,
per-animation speed and the `nextFrame` countdown. -/
structure AnimSeq where
  name : String
  frame : List (Option FrameDescriptor)
  idx : Int
  length : Nat
  animationspeed : Int
  nextFrame : Int
deriving DecidableEq, Repr

/-- The `me.AnimationSheet` instance state.  `seqHeap` is the object
heap for animation sequences; `anim` binds names to heap addresses;
`current` is the address of the active sequence (`Option.none` models the
initial `null`).  `offset`/`width`/`height`/`sourceAngle` are the sprite
draw-geometry fields written by `setAnimationFrame`.  `cbCalls` counts
`resetAnim` callback invocations (instrumentation for the model; it does
not influence control flow beyond feeding the callback). -/
structure AnimationSheet where
  animationpause : Bool
  animationspeed : Int
  seqHeap : List AnimSeq
  anim : List (String × Nat)
  resetAnim : ResetPolicy
  current : Option Nat
  textureAtlas : List FrameDescriptor
  atlasIndices : Option (List (String × Int))
  offset : Int × Int
  width : Int
  height : Int
  sourceAngle : Int
  cbCalls : Nat

/-- JS `%` on integer values: truncating remainder. -/
def jsRem (a b : Int) : Int := Int.tmod a b

/-- JS `idx || 0` for an optional numeric argument (`undefined ↦ 0`;
`0 ↦ 0` coincides). -/
def jsOrZero : Option Int → Int
  | Option.none => 0
  | some v => v

/-- JS `animationspeed || this.animationspeed`: `undefined` and the
falsy number `0` both fall back to the default. -/
def jsOrDefault (a : Option Int) (d : Int) : Int :=
  match a with
  | Option.none => d
  | some v => if v = 0 then d else v

/-- JS `resetAnim || null`: the empty string is falsy, hence stored as
`null`; every other value is kept. -/
def normPolicy : ResetPolicy → ResetPolicy
  | .switchTo s => if s = "" then .none else .switchTo s
  | p => p

/-- Name lookup in the `anim` object (first binding wins; `assocSet`
keeps at most one binding per name). -/
def assocGet : List (String × Nat) → String → Option Nat
  | [], _ => Option.none
  | (k, v) :: rest, name => if k = name then some v else assocGet rest name

/-- Bind or rebind a name in the `anim` object. -/
def assocSet : List (String × Nat) → String → Nat → List (String × Nat)
  | [], name, a => [(name, a)]
  | (k, v) :: rest, name, a =>
      if k = name then (name, a) :: rest else (k, v) :: assocSet rest name a

/-- Name lookup in the `atlasIndices` table. -/
def assocGetI : List (String × Int) → String → Option Int
  | [], _ => Option.none
  | (k, v) :: rest, name => if k = name then some v else assocGetI rest name

/-- Dereference a heap address. -/
def heapGet (h : List AnimSeq) (i : Nat) : Option AnimSeq := h[i]?

/-- Overwrite the object at a heap address. -/
def heapSet (h : List AnimSeq) (i : Nat) (v : AnimSeq) : List AnimSeq := h.set i v

/-- JS array read at a possibly negative integer index: any index
outside `[0, length)` yields `undefined`. -/
def listGetInt {α : Type} (l : List α) (i : Int) : Option α :=
  if 0 ≤ i then l[i.toNat]? else Option.none

/-- The active sequence object, when `current` is a live reference. -/
def currentSeq (s : AnimationSheet) : Option AnimSeq :=
  s.current.bind (heapGet s.seqHeap)

/-- `getCurrentAnimationFrame` (line 248): the active sequence's `idx`. -/
def getCurrentAnimationFrame (s : AnimationSheet) : Option Int :=
  (currentSeq s).map AnimSeq.idx

/-- `isCurrentAnimation` (line 218): name comparison against the active
sequence (`Option.none` models the throw when `current` is `null`). -/
def isCurrentAnimation (s : AnimationSheet) (name : String) : Option Bool :=
  (currentSeq s).map (fun q => q.name = name)

/-- Copy a frame's geometry into the sprite fields
(lines 235-238 of `setAnimationFrame`). -/
def applyFrameGeom (s : AnimationSheet) (f : FrameDescriptor) : AnimationSheet :=
  { s with offset := f.offset, width := f.width, height := f.height,
           sourceAngle := f.angle }

/-- Source setAnimationFrame (lines 232-239):
`this.current.idx = (idx || 0) % this.current.length`, then the frame at
the new `idx` is dereferenced for its geometry; a missing frame
(`undefined`, out-of-range or negative index) throws after the `idx`
write has taken effect. -/
def setAnimationFrame (s : AnimationSheet) (idxArg : Option Int) :
    AnimationSheet × Option AnimError :=
  match s.current with
  | Option.none => (s, some .typeError)
  | some addr =>
    match heapGet s.seqHeap addr with
    | Option.none => (s, some .typeError)
    | some q =>
      let i := jsRem (jsOrZero idxArg) (q.length : Int)
      let s1 := { s with seqHeap := heapSet s.seqHeap addr { q with idx := i } }
      match listGetInt q.frame i with
      | some (some f) => (applyFrameGeom s1 f, Option.none)
      | _ => (s1, some .typeError)

/-- Source setCurrentAnimation (lines 195-204): on a defined name, point
`current` at that object, store `resetAnim || null`, call
`setAnimationFrame(this.current.idx)` — note: the sequence's *stored*
cursor, not `0` — and re-arm `nextFrame` with the sequence's speed;
otherwise throw `notDefined`. -/
def setCurrentAnimation (s : AnimationSheet) (name : String)
    (resetAnim : ResetPolicy) : AnimationSheet × Option AnimError :=
  match assocGet s.anim name with
  | Option.none => (s, some (.notDefined name))
  | some addr =>
    let s1 := { s with current := some addr, resetAnim := normPolicy resetAnim }
    match heapGet s1.seqHeap addr with
    | Option.none => (s1, some .typeError)
    | some q =>
      match setAnimationFrame s1 (some q.idx) with
      | (s2, some e) => (s2, some e)
      | (s2, Option.none) =>
        match heapGet s2.seqHeap addr with
        | Option.none => (s2, some .typeError)
        | some q2 =>
          let q3 := { q2 with nextFrame := q2.animationspeed }
          ({ s2 with seqHeap := heapSet s2.seqHeap addr q3 }, Option.none)

/-- Resolve one entry of the `index` array (lines 140-151): a number is
an atlas read (`undefined` when out of range), a string requires
`atlasIndices` (else the `me.Renderable.Error` is thrown) and is then
looked up through it, with missing names yielding `undefined`. -/
def resolveRef (atlas : List FrameDescriptor)
    (indices : Option (List (String × Int))) :
    FrameRef → Except AnimError (Option FrameDescriptor)
  | .num n => .ok (listGetInt atlas n)
  | .str nm =>
    match indices with
    | Option.none => .error .stringIndexUnsupported
    | some m =>
      match assocGetI m nm with
      | some k => .ok (listGetInt atlas k)
      | Option.none => .ok Option.none

/-- The frame-resolution loop of `addAnimation`: frames resolved before
a throw are kept (the JS loop writes `frame[i]` one slot at a time). -/
def resolveRefs (atlas : List FrameDescriptor)
    (indices : Option (List (String × Int))) :
    List FrameRef → List (Option FrameDescriptor) × Option AnimError
  | [] => ([], Option.none)
  | r :: rs =>
    match resolveRef atlas indices r with
    | .error e => ([], some e)
    | .ok f =>
      let (fs, e) := resolveRefs atlas indices rs
      (f :: fs, e)

/-- The effective index list of `addAnimation`: a missing (`null` or
`undefined`) `index` argument is replaced by every atlas position in
order (lines 130-137); any actual array — including an empty one — is
used as given. -/
def effIndex (s : AnimationSheet) : Option (List FrameRef) → List FrameRef
  | Option.none =>
      (List.range s.textureAtlas.length).map (fun j => FrameRef.num (Int.ofNat j))
  | some l => l

/-- Source addAnimation (lines 120-154): a fresh animation object is bound
under `name` *first*; a `null`/`undefined` index means every atlas frame
in order (`index == null` — an explicitly empty array is *not* caught by
this test); then the frames are resolved one by one, and only on full
success is the cached `length` field set to the frame count. -/
def addAnimation (s : AnimationSheet) (name : String)
    (index : Option (List FrameRef)) (aspeed : Option Int) :
    AnimationSheet × Option AnimError :=
  let addr := s.seqHeap.length
  let newSeq : AnimSeq :=
    { name := name, frame := [], idx := 0, length := 0,
      animationspeed := jsOrDefault aspeed s.animationspeed, nextFrame := 0 }
  let s1 := { s with seqHeap := s.seqHeap ++ [newSeq],
                     anim := assocSet s.anim name addr }
  match resolveRefs s.textureAtlas s.atlasIndices (effIndex s index) with
  | (fs, some e) =>
      let part := { newSeq with frame := fs }
      ({ s1 with seqHeap := heapSet s1.seqHeap addr part }, some e)
  | (fs, Option.none) =>
      let full := { newSeq with frame := fs, length := fs.length }
      ({ s1 with seqHeap := heapSet s1.seqHeap addr full }, Option.none)

/-- Modelled from the spec: the base-class update (`me.Sprite.update`,
called through `this._super`) is outside this excerpt; per the spec the
tick reports `false` when no visual frame change occurred, so the base
update contributes `false` and no observable state change. -/
def spriteUpdate : Bool := false

/-- The result of `update`: a returned boolean or a thrown error. -/
inductive UpdResult where
  | ret (b : Bool)
  | thrown (e : AnimError)
deriving DecidableEq, Repr

/-- Lines 286-287 of `update`: `this.current.nextFrame =
this.current.animationspeed; return this._super(...) || true` — applied
to the *possibly switched* active sequence. -/
def rearmNextFrame (s : AnimationSheet) : AnimationSheet × UpdResult :=
  match s.current with
  | Option.none => (s, .thrown .typeError)
  | some a =>
    match heapGet s.seqHeap a with
    | Option.none => (s, .thrown .typeError)
    | some c =>
      let c1 := { c with nextFrame := c.animationspeed }
      ({ s with seqHeap := heapSet s.seqHeap a c1 }, .ret (spriteUpdate || true))

/-- Source update (lines 261-291).  When not paused and the strip has more
than one frame: decrement `nextFrame` by `dt`; once it is `≤ 0`, advance
via `setAnimationFrame(++idx)` (the pre-increment's intermediate write is
immediately overwritten by `setAnimationFrame`, so it is folded into the
argument); on a wrap to `idx == 0` with a truthy `resetAnim`, either
switch animation (string) or consult the callback — a callback returning
`false` pins `idx` to `length - 1`, reapplies that frame's geometry and
returns `false` without re-arming `nextFrame`; every other advance
re-arms `nextFrame` and returns `true`. -/
def update (s : AnimationSheet) (dt : Int) : AnimationSheet × UpdResult :=
  match s.current with
  | Option.none => (s, .thrown .typeError)
  | some addr =>
    match heapGet s.seqHeap addr with
    | Option.none => (s, .thrown .typeError)
    | some cur =>
      if !s.animationpause && decide (1 < cur.length) then
        let cur1 := { cur with nextFrame := cur.nextFrame - dt }
        let s1 := { s with seqHeap := heapSet s.seqHeap addr cur1 }
        if cur1.nextFrame ≤ 0 then
          match setAnimationFrame s1 (some (cur1.idx + 1)) with
          | (s2, some e) => (s2, .thrown e)
          | (s2, Option.none) =>
            match heapGet s2.seqHeap addr with
            | Option.none => (s2, .thrown .typeError)
            | some cur2 =>
              if cur2.idx = 0 then
                match s2.resetAnim with
                | .switchTo tgt =>
                  match setCurrentAnimation s2 tgt .none with
                  | (s3, some e) => (s3, .thrown e)
                  | (s3, Option.none) => rearmNextFrame s3
                | .callback f =>
                  let r := f s2.cbCalls
                  let s3 := { s2 with cbCalls := s2.cbCalls + 1 }
                  if r = false then
                    match heapGet s3.seqHeap addr with
                    | Option.none => (s3, .thrown .typeError)
                    | some cur3 =>
                      let cur4 := { cur3 with idx := (cur3.length : Int) - 1 }
                      let s4 := { s3 with seqHeap := heapSet s3.seqHeap addr cur4 }
                      match setAnimationFrame s4 (some ((cur3.length : Int) - 1)) with
                      | (s5, some e) => (s5, .thrown e)
                      | (s5, Option.none) => (s5, .ret false)
                  else rearmNextFrame s3
                | .none => rearmNextFrame s2
              else rearmNextFrame s2
        else (s1, .ret spriteUpdate)
      else (s, .ret spriteUpdate)

/-- Iterate `update` over a list of time deltas, collecting the results. -/
def runTicks (s : AnimationSheet) : List Int → AnimationSheet × List UpdResult
  | [] => (s, [])
  | dt :: rest =>
    let p := update s dt
    let p2 := runTicks p.1 rest
    (p2.1, p.2 :: p2.2)

/-- The constructor (lines 44-94), geometry-independent part: default
fields, the given atlas/indices, then `addAnimation("default", null)` and
`setCurrentAnimation("default")`. -/
def initSheet (atlas : List FrameDescriptor)
    (indices : Option (List (String × Int))) : AnimationSheet × Option AnimError :=
  let s0 : AnimationSheet :=
    { animationpause := false, animationspeed := 100, seqHeap := [], anim := [],
      resetAnim := .none, current := Option.none, textureAtlas := atlas,
      atlasIndices := indices, offset := (0, 0), width := 0, height := 0,
      sourceAngle := 0, cbCalls := 0 }
  match addAnimation s0 "default" Option.none Option.none with
  | (s1, some e) => (s1, some e)
  | (s1, Option.none) => setCurrentAnimation s1 "default" .none


/-- Successful resolution of a single numeric frame reference (used to
describe the frames written before a thrown string-reference error). -/
def resolveOk (atlas : List FrameDescriptor) : FrameRef → Option FrameDescriptor
  | .num n => listGetInt atlas n
  | .str _ => Option.none

/-! ## Concrete fixtures for counterexamples and witnesses -/

/-- Test frame A of the three-frame atlas. -/
def fA : FrameDescriptor := { offset := (0, 0), width := 10, height := 10, angle := 0 }

/-- Test frame B of the three-frame atlas. -/
def fB : FrameDescriptor := { offset := (10, 0), width := 11, height := 12, angle := 1 }

/-- Test frame C of the three-frame atlas. -/
def fC : FrameDescriptor := { offset := (20, 0), width := 13, height := 14, angle := 2 }

/-- A three-frame spritesheet atlas. -/
def atlas3 : List FrameDescriptor := [fA, fB, fC]

/-- A freshly constructed sheet over `atlas3` (no by-name table): its
default animation spans all three frames at the default 100 ms. -/
def sheet3 : AnimationSheet := (initSheet atlas3 Option.none).1

/-- The state of the default animation object of `sheet3` right after
construction. -/
def defaultSeq3 : AnimSeq :=
  { name := "default", frame := [some fA, some fB, some fC], idx := 0,
    length := 3, animationspeed := 100, nextFrame := 100 }

/-- A one-frame animation object. -/
def oneSeq : AnimSeq :=
  { name := "one", frame := [some fA], idx := 0, length := 1,
    animationspeed := 100, nextFrame := 100 }

/-- A sheet whose active animation has exactly one frame. -/
def oneSheet : AnimationSheet :=
  { animationpause := false, animationspeed := 100, seqHeap := [oneSeq],
    anim := [("one", 0)], resetAnim := .none, current := some 0,
    textureAtlas := atlas3, atlasIndices := Option.none, offset := (0, 0),
    width := 0, height := 0, sourceAngle := 0, cbCalls := 0 }

/-- A two-frame animation object sitting on its last frame with a full
countdown (one consuming tick away from wrapping). -/
def holdSeq : AnimSeq :=
  { name := "h", frame := [some fA, some fB], idx := 1, length := 2,
    animationspeed := 100, nextFrame := 100 }

/-- A sheet driving `holdSeq` under an always-false completion callback:
its next consuming tick enters the hold state. -/
def holdSheet : AnimationSheet :=
  { animationpause := false, animationspeed := 100, seqHeap := [holdSeq],
    anim := [("h", 0)], resetAnim := .callback (fun _ => false),
    current := some 0, textureAtlas := atlas3, atlasIndices := Option.none,
    offset := (0, 0), width := 0, height := 0, sourceAngle := 0, cbCalls := 0 }

/-- Scenario for C2: define a two-frame animation on `sheet3`,
activate it, and advance it by one frame. -/
def sheetC2 : AnimationSheet :=
  (update (setCurrentAnimation
    (addAnimation sheet3 "a" (some [FrameRef.num 0, FrameRef.num 1]) Option.none).1
    "a" ResetPolicy.none).1 100).1

/-! ## Basic lemmas about the heap, array reads and JS remainder -/

theorem heapGet_lt {h : List AnimSeq} {a : Nat} {q : AnimSeq}
    (hget : heapGet h a = some q) : a < h.length := by
  by_contra hge
  unfold heapGet at hget
  rw [List.getElem?_eq_none (Nat.le_of_not_lt hge)] at hget
  exact Option.noConfusion hget

theorem heapGet_set_self {h : List AnimSeq} {a : Nat} (hlt : a < h.length)
    (v : AnimSeq) : heapGet (heapSet h a v) a = some v := by
  simp [heapGet, heapSet, List.getElem?_set_self, hlt]

theorem heapSet_heapSet (h : List AnimSeq) (a : Nat) (u v : AnimSeq) :
    heapSet (heapSet h a u) a v = heapSet h a v := by
  unfold heapSet
  exact List.set_set u v h a

theorem listGetInt_all_some {l : List (Option FrameDescriptor)} {i : Int}
    (hall : ∀ g ∈ l, g ≠ Option.none) (h0 : 0 ≤ i) (hlt : i < (l.length : Int)) :
    ∃ f, listGetInt l i = some (some f) := by
  unfold listGetInt
  rw [if_pos h0]
  have hlt2 : i.toNat < l.length := by omega
  rw [List.getElem?_eq_getElem hlt2]
  have hmem := List.getElem_mem hlt2
  have hne := hall _ hmem
  rcases Option.ne_none_iff_exists.mp hne with ⟨f, hfeq⟩
  exact ⟨f, by rw [← hfeq]⟩

theorem jsRem_nonneg {a : Int} (b : Int) (ha : 0 ≤ a) : 0 ≤ jsRem a b :=
  Int.tmod_nonneg b ha

theorem jsRem_lt_of_pos (a : Int) {b : Int} (hb : 0 < b) : jsRem a b < b :=
  Int.tmod_lt_of_pos a hb

/-! ## Symbolic evaluation lemmas for update -/

/-- When paused or on a strip of at most one frame, an update tick is a
complete no-op returning false. -/
theorem update_skip (s : AnimationSheet) (addr : Nat) (q : AnimSeq) (dt : Int)
    (h1 : s.current = some addr) (h2 : heapGet s.seqHeap addr = some q)
    (h3 : s.animationpause = true ∨ q.length ≤ 1) :
    update s dt = (s, .ret false) := by
  rcases h3 with h | h
  · simp only [update, h1, h2, h, spriteUpdate, Bool.not_true, Bool.false_and,
      Bool.false_eq_true, if_false]
  · simp only [update, h1, h2, spriteUpdate]
    rw [if_neg]
    simp only [Bool.and_eq_true, decide_eq_true_eq, not_and, Nat.not_lt]
    intro _
    exact h

/-- An unpaused tick on a live multi-frame strip whose countdown is
consumed, with no loop policy installed: exactly one advance, the cursor
wraps by one modulo the strip length, and the countdown is re-armed with
the full per-frame duration (any leftover is discarded). -/
theorem update_advance_nopol (s : AnimationSheet) (addr : Nat) (q : AnimSeq) (dt : Int)
    (h1 : s.current = some addr) (h2 : heapGet s.seqHeap addr = some q)
    (hp : s.animationpause = false) (hpol : s.resetAnim = ResetPolicy.none)
    (hlen : 1 < q.length) (hwf : q.length = q.frame.length)
    (hsome : ∀ g ∈ q.frame, g ≠ Option.none) (hidx : 0 ≤ q.idx)
    (ht : q.nextFrame ≤ dt) :
    (update s dt).2 = .ret true ∧
    heapGet (update s dt).1.seqHeap addr =
      some { q with idx := jsRem (q.idx + 1) (q.length : Int),
                    nextFrame := q.animationspeed } := by
  have hlt : addr < s.seqHeap.length := heapGet_lt h2
  have ht2 : q.nextFrame - dt ≤ 0 := by omega
  have hi0 : 0 ≤ jsRem (q.idx + 1) (q.length : Int) := jsRem_nonneg _ (by omega)
  have hilt : jsRem (q.idx + 1) (q.length : Int) < (q.length : Int) :=
    jsRem_lt_of_pos _ (by exact_mod_cast Nat.lt_of_lt_of_le Nat.zero_lt_one (Nat.le_of_lt hlen))
  obtain ⟨f, hf⟩ := listGetInt_all_some hsome hi0 (by rw [← hwf]; exact hilt)
  refine ⟨?_, ?_⟩ <;>
    simp only [update, h1, h2, hp, hpol, Bool.not_false, Bool.true_and,
      decide_eq_true_eq, setAnimationFrame, rearmNextFrame, jsOrZero,
      heapSet_heapSet, heapGet_set_self hlt, hf, hlen, ht2, if_true, ite_self,
      spriteUpdate, Bool.false_or, List.length_set, applyFrameGeom]

/-- An unpaused tick on a live multi-frame strip whose countdown is not
yet consumed: no advance, the tick returns false, and the decremented
countdown is kept (credit within the current frame is retained). -/
theorem update_noadvance (s : AnimationSheet) (addr : Nat) (q : AnimSeq) (dt : Int)
    (h1 : s.current = some addr) (h2 : heapGet s.seqHeap addr = some q)
    (hp : s.animationpause = false) (hlen : 1 < q.length)
    (ht : dt < q.nextFrame) :
    (update s dt).2 = .ret false ∧
    heapGet (update s dt).1.seqHeap addr =
      some { q with nextFrame := q.nextFrame - dt } := by
  have hlt : addr < s.seqHeap.length := heapGet_lt h2
  have ht2 : ¬(q.nextFrame - dt ≤ 0) := by omega
  refine ⟨?_, ?_⟩ <;>
    simp only [update, h1, h2, hp, Bool.not_false, Bool.true_and,
      decide_eq_true_eq, hlen, ht2, if_true, if_false, spriteUpdate,
      heapGet_set_self hlt]


/-- One unpaused tick from a wrap-pending state under an
always-false callback policy: the strip advances through the wrap, the
callback is invoked once, and the controller lands in the hold state —
cursor pinned to the last frame, that frame geometry applied, tick
reported false, countdown left un-re-armed. -/
theorem update_hold_step (s : AnimationSheet) (addr : Nat) (q : AnimSeq)
    (cb : Nat → Bool) (dt : Int)
    (h1 : s.current = some addr) (h2 : heapGet s.seqHeap addr = some q)
    (hp : s.animationpause = false) (hpol : s.resetAnim = ResetPolicy.callback cb)
    (hcb : ∀ n, cb n = false)
    (hlen : 1 < q.length) (hwf : q.length = q.frame.length)
    (hsome : ∀ g ∈ q.frame, g ≠ Option.none)
    (hidx : q.idx = (q.length : Int) - 1)
    (ht : q.nextFrame ≤ dt) :
    ∃ fr, listGetInt q.frame ((q.length : Int) - 1) = some (some fr) ∧
      update s dt =
        (applyFrameGeom
          { s with
              seqHeap := heapSet s.seqHeap addr
                { q with idx := (q.length : Int) - 1,
                         nextFrame := q.nextFrame - dt },
              cbCalls := s.cbCalls + 1 } fr,
         .ret false) := by
  have hlt : addr < s.seqHeap.length := heapGet_lt h2
  have ht2 : q.nextFrame - dt ≤ 0 := by omega
  have hlen0 : (0 : Int) < (q.length : Int) := by exact_mod_cast Nat.lt_of_lt_of_le Nat.zero_lt_one (Nat.le_of_lt hlen)
  have hz : jsRem (q.idx + 1) (q.length : Int) = 0 := by
    rw [hidx]
    have : (q.length : Int) - 1 + 1 = (q.length : Int) := by omega
    rw [this]
    exact Int.tmod_self
  have htm : jsRem ((q.length : Int) - 1) (q.length : Int) = (q.length : Int) - 1 := by
    unfold jsRem
    exact Int.tmod_eq_of_lt (by omega) (by omega)
  obtain ⟨f0, hf0⟩ := listGetInt_all_some hsome (le_refl 0) (by rw [← hwf]; omega)
  obtain ⟨fr, hfr⟩ := listGetInt_all_some hsome (by omega : (0:Int) ≤ (q.length : Int) - 1)
      (by rw [← hwf]; omega)
  refine ⟨fr, hfr, ?_⟩
  simp only [update, h1, h2, hp, hpol, hcb, Bool.not_false, Bool.true_and,
    decide_eq_true_eq, setAnimationFrame, rearmNextFrame, jsOrZero,
    heapSet_heapSet, heapGet_set_self hlt, hz, htm, hf0, hfr, hlen, ht2,
    if_true, ite_self, spriteUpdate, Bool.false_or, List.length_set,
    applyFrameGeom]


/-- Iterating unpaused ticks from an established hold state (countdown
non-positive, cursor on the last frame, always-false callback): every
tick returns false, the callback fires once per tick, and the cursor,
geometry and policy stay pinned. -/
theorem hold_run_aux (dts : List Int) :
    ∀ (s : AnimationSheet) (addr : Nat) (q : AnimSeq) (cb : Nat → Bool)
      (fr : FrameDescriptor),
    s.current = some addr → heapGet s.seqHeap addr = some q →
    s.animationpause = false → s.resetAnim = ResetPolicy.callback cb →
    (∀ n, cb n = false) → 1 < q.length → q.length = q.frame.length →
    (∀ g ∈ q.frame, g ≠ Option.none) → q.idx = (q.length : Int) - 1 →
    q.nextFrame ≤ 0 →
    listGetInt q.frame ((q.length : Int) - 1) = some (some fr) →
    s.offset = fr.offset → s.width = fr.width → s.height = fr.height →
    s.sourceAngle = fr.angle →
    (∀ d ∈ dts, 0 ≤ d) →
    (runTicks s dts).2 = dts.map (fun _ => UpdResult.ret false) ∧
    (runTicks s dts).1.current = some addr ∧
    (runTicks s dts).1.resetAnim = ResetPolicy.callback cb ∧
    (runTicks s dts).1.animationpause = false ∧
    (runTicks s dts).1.cbCalls = s.cbCalls + dts.length ∧
    (runTicks s dts).1.offset = fr.offset ∧
    (runTicks s dts).1.width = fr.width ∧
    (runTicks s dts).1.height = fr.height ∧
    (runTicks s dts).1.sourceAngle = fr.angle ∧
    ∃ q2, heapGet (runTicks s dts).1.seqHeap addr = some q2 ∧
      q2.frame = q.frame ∧ q2.length = q.length ∧
      q2.idx = (q.length : Int) - 1 ∧ q2.nextFrame ≤ 0 := by
  induction dts with
  | nil =>
    intro s addr q cb fr h1 h2 hp hpol hcb hlen hwf hsome hidx hnf hfr
      hgo hgw hgh hga hdts
    exact ⟨rfl, h1, hpol, hp, rfl, hgo, hgw, hgh, hga,
      ⟨q, h2, rfl, rfl, hidx, hnf⟩⟩
  | cons d dts ih =>
    intro s addr q cb fr h1 h2 hp hpol hcb hlen hwf hsome hidx hnf hfr
      hgo hgw hgh hga hdts
    have hd : 0 ≤ d := hdts d (List.mem_cons_self d dts)
    have hlt : addr < s.seqHeap.length := heapGet_lt h2
    obtain ⟨fr2, hfr2, hupd⟩ :=
      update_hold_step s addr q cb d h1 h2 hp hpol hcb hlen hwf hsome hidx
        (by omega)
    have hfr2eq : fr2 = fr := by
      rw [hfr] at hfr2
      exact (Option.some_injective _ (Option.some_injective _ hfr2)).symm
    subst hfr2eq
    have hih := ih (applyFrameGeom
        { s with
            seqHeap := heapSet s.seqHeap addr
              { q with idx := (q.length : Int) - 1,
                       nextFrame := q.nextFrame - d },
            cbCalls := s.cbCalls + 1 } fr2) addr
      { q with idx := (q.length : Int) - 1, nextFrame := q.nextFrame - d }
      cb fr2 h1 (heapGet_set_self hlt _) hp hpol hcb hlen hwf hsome rfl
      (by simp only; omega) hfr rfl rfl rfl rfl
      (fun x hx => hdts x (List.mem_cons_of_mem d hx))
    simp only [runTicks, hupd, List.map_cons, List.length_cons]
    refine ⟨?_, ?_, ?_, ?_, ?_, ?_, ?_, ?_, ?_, ?_⟩
    · rw [hih.1]
    · exact hih.2.1
    · exact hih.2.2.1
    · exact hih.2.2.2.1
    · rw [hih.2.2.2.2.1]
      simp only [applyFrameGeom]
      omega
    · exact hih.2.2.2.2.2.1
    · exact hih.2.2.2.2.2.2.1
    · exact hih.2.2.2.2.2.2.2.1
    · exact hih.2.2.2.2.2.2.2.2.1
    · exact hih.2.2.2.2.2.2.2.2.2


/-! ## C5 and C10: the hold state -/

/-- C5: when the onLoop policy is a callback that returns false at a
wrap, the controller enters a hold: the wrap tick pins `currentIndex` to
`frames.length - 1`, reapplies that frame geometry and returns false
without re-arming `remainingMs`, and every subsequent unpaused tick
keeps returning false with `currentIndex` still `frames.length - 1` and
`remainingMs` still non-positive, until a new sequence is set. -/
theorem c5_callback_false_holds_last_frame (s : AnimationSheet) (addr : Nat)
    (q : AnimSeq) (cb : Nat → Bool) (dt : Int) (dts : List Int)
    (h1 : s.current = some addr) (h2 : heapGet s.seqHeap addr = some q)
    (hp : s.animationpause = false) (hpol : s.resetAnim = ResetPolicy.callback cb)
    (hcb : ∀ n, cb n = false) (hlen : 1 < q.length)
    (hwf : q.length = q.frame.length)
    (hsome : ∀ g ∈ q.frame, g ≠ Option.none)
    (hidx : q.idx = (q.length : Int) - 1)
    (ht : q.nextFrame ≤ dt) (hdts : ∀ d ∈ dts, 0 ≤ d) :
    (runTicks s (dt :: dts)).2 = (dt :: dts).map (fun _ => UpdResult.ret false) ∧
    ∃ fr, listGetInt q.frame ((q.length : Int) - 1) = some (some fr) ∧
      (runTicks s (dt :: dts)).1.offset = fr.offset ∧
      (runTicks s (dt :: dts)).1.width = fr.width ∧
      (runTicks s (dt :: dts)).1.height = fr.height ∧
      (runTicks s (dt :: dts)).1.sourceAngle = fr.angle ∧
      (runTicks s (dt :: dts)).1.current = some addr ∧
      (runTicks s (dt :: dts)).1.resetAnim = ResetPolicy.callback cb ∧
      ∃ q2, heapGet (runTicks s (dt :: dts)).1.seqHeap addr = some q2 ∧
        q2.frame = q.frame ∧ q2.length = q.length ∧
        q2.idx = (q.length : Int) - 1 ∧ q2.nextFrame ≤ 0 := by
  have hlt : addr < s.seqHeap.length := heapGet_lt h2
  obtain ⟨fr, hfr, hupd⟩ :=
    update_hold_step s addr q cb dt h1 h2 hp hpol hcb hlen hwf hsome hidx ht
  have haux := hold_run_aux dts (applyFrameGeom
      { s with
          seqHeap := heapSet s.seqHeap addr
            { q with idx := (q.length : Int) - 1,
                     nextFrame := q.nextFrame - dt },
          cbCalls := s.cbCalls + 1 } fr) addr
    { q with idx := (q.length : Int) - 1, nextFrame := q.nextFrame - dt }
    cb fr h1 (heapGet_set_self hlt _) hp hpol hcb hlen hwf hsome rfl
    (by simp only; omega) hfr rfl rfl rfl rfl hdts
  simp only [runTicks, hupd, List.map_cons]
  obtain ⟨q2, hq2, hq2f, hq2l, hq2i, hq2n⟩ := haux.2.2.2.2.2.2.2.2.2
  refine ⟨by rw [haux.1], fr, hfr, haux.2.2.2.2.2.1, haux.2.2.2.2.2.2.1,
    haux.2.2.2.2.2.2.2.1, haux.2.2.2.2.2.2.2.2.1, haux.2.1, haux.2.2.1,
    q2, hq2, hq2f, hq2l, hq2i, hq2n⟩

/-- C10: once a hold has been entered, every further unpaused tick
invokes the onLoop callback exactly once more — the callback-invocation
counter grows by the number of ticks performed, wrap tick included. -/
theorem c10_callback_fires_once_per_tick (s : AnimationSheet) (addr : Nat)
    (q : AnimSeq) (cb : Nat → Bool) (dt : Int) (dts : List Int)
    (h1 : s.current = some addr) (h2 : heapGet s.seqHeap addr = some q)
    (hp : s.animationpause = false) (hpol : s.resetAnim = ResetPolicy.callback cb)
    (hcb : ∀ n, cb n = false) (hlen : 1 < q.length)
    (hwf : q.length = q.frame.length)
    (hsome : ∀ g ∈ q.frame, g ≠ Option.none)
    (hidx : q.idx = (q.length : Int) - 1)
    (ht : q.nextFrame ≤ dt) (hdts : ∀ d ∈ dts, 0 ≤ d) :
    (runTicks s (dt :: dts)).1.cbCalls = s.cbCalls + (dt :: dts).length := by
  have hlt : addr < s.seqHeap.length := heapGet_lt h2
  obtain ⟨fr, hfr, hupd⟩ :=
    update_hold_step s addr q cb dt h1 h2 hp hpol hcb hlen hwf hsome hidx ht
  have haux := hold_run_aux dts (applyFrameGeom
      { s with
          seqHeap := heapSet s.seqHeap addr
            { q with idx := (q.length : Int) - 1,
                     nextFrame := q.nextFrame - dt },
          cbCalls := s.cbCalls + 1 } fr) addr
    { q with idx := (q.length : Int) - 1, nextFrame := q.nextFrame - dt }
    cb fr h1 (heapGet_set_self hlt _) hp hpol hcb hlen hwf hsome rfl
    (by simp only; omega) hfr rfl rfl rfl rfl hdts
  simp only [runTicks, hupd, List.length_cons]
  rw [haux.2.2.2.2.1]
  simp only [applyFrameGeom]
  omega


/-! ## C1: advance timing -/

/-- C1 counterexample: the claim says a leftover negative remainder
carries into the next frame countdown. On a fresh 100 ms sheet,
tick(150) advances once, but the countdown is re-armed to the full
100 ms — not the 50 ms the carry-over semantics would require. -/
theorem c1_counterexample :
    (update sheet3 150).2 = UpdResult.ret true ∧
    (currentSeq (update sheet3 150).1).map AnimSeq.nextFrame = some 100 ∧
    (currentSeq (update sheet3 150).1).map AnimSeq.nextFrame ≠ some 50 := by
  decide

/-- C1 (amended): on an unpaused multi-frame active sequence with no
loop policy, a tick whose delta consumes the countdown advances the
cursor by exactly one modulo the frame count (staying in range) and
re-arms the countdown with the full per-frame duration, discarding any
leftover; a tick that does not consume the countdown returns false and
keeps the decremented countdown. -/
theorem c1_tick_advances_once_and_discards_leftover (s : AnimationSheet)
    (addr : Nat) (q : AnimSeq) (dt : Int)
    (h1 : s.current = some addr) (h2 : heapGet s.seqHeap addr = some q)
    (hp : s.animationpause = false) (hpol : s.resetAnim = ResetPolicy.none)
    (hlen : 1 < q.length) (hwf : q.length = q.frame.length)
    (hsome : ∀ g ∈ q.frame, g ≠ Option.none) (hidx : 0 ≤ q.idx) :
    (q.nextFrame ≤ dt →
      (update s dt).2 = UpdResult.ret true ∧
      heapGet (update s dt).1.seqHeap addr =
        some { q with idx := jsRem (q.idx + 1) (q.length : Int),
                      nextFrame := q.animationspeed } ∧
      0 ≤ jsRem (q.idx + 1) (q.length : Int) ∧
      jsRem (q.idx + 1) (q.length : Int) < (q.length : Int)) ∧
    (dt < q.nextFrame →
      (update s dt).2 = UpdResult.ret false ∧
      heapGet (update s dt).1.seqHeap addr =
        some { q with nextFrame := q.nextFrame - dt }) := by
  constructor
  · intro ht
    obtain ⟨hret, hheap⟩ :=
      update_advance_nopol s addr q dt h1 h2 hp hpol hlen hwf hsome hidx ht
    have hl0 : (0 : Int) < (q.length : Int) := by omega
    exact ⟨hret, hheap, jsRem_nonneg _ (by omega), jsRem_lt_of_pos _ hl0⟩
  · intro ht
    exact update_noadvance s addr q dt h1 h2 hp hlen ht

/-- C1 witness: the amended theorem instantiated on the fresh
three-frame sheet with a 100 ms tick. -/
theorem c1_witness :
    (update sheet3 100).2 = UpdResult.ret true ∧
    heapGet (update sheet3 100).1.seqHeap 0 =
      some { defaultSeq3 with
               idx := jsRem (defaultSeq3.idx + 1) (defaultSeq3.length : Int),
               nextFrame := defaultSeq3.animationspeed } ∧
    0 ≤ jsRem (defaultSeq3.idx + 1) (defaultSeq3.length : Int) ∧
    jsRem (defaultSeq3.idx + 1) (defaultSeq3.length : Int) < (defaultSeq3.length : Int) :=
  (c1_tick_advances_once_and_discards_leftover sheet3 0 defaultSeq3 100
    rfl rfl rfl rfl (by decide) (by decide) (by decide) (by decide)).1 (by decide)

/-! ## C2: activating a sequence does not reset the cursor -/

/-- C2 evaluation at the failing input: advance a two-frame animation
"a" to frame 1, then call setCurrentAnimation("a") again. The function
succeeds and the sequence is active, but currentIndex is still 1 — not
0 as the claim (and the function doc comment in the source) state. -/
theorem c2_reactivation_keeps_cursor :
    (setCurrentAnimation sheetC2 "a" ResetPolicy.none).2 = Option.none ∧
    isCurrentAnimation (setCurrentAnimation sheetC2 "a" ResetPolicy.none).1 "a" =
      some true ∧
    getCurrentAnimationFrame (setCurrentAnimation sheetC2 "a" ResetPolicy.none).1 =
      some 1 ∧
    getCurrentAnimationFrame (setCurrentAnimation sheetC2 "a" ResetPolicy.none).1 ≠
      some 0 := by
  decide

/-! ## C3: cursor range under setAnimationFrame -/

/-- C3 counterexample: setAnimationFrame(-1) on the fresh three-frame
sheet leaves currentIndex at -1 (the JS remainder keeps the dividend
sign), outside the valid range, and throws dereferencing the missing
frame. -/
theorem c3_counterexample :
    getCurrentAnimationFrame (setAnimationFrame sheet3 (some (-1))).1 = some (-1) ∧
    ¬ (0 ≤ (-1 : Int)) ∧
    (setAnimationFrame sheet3 (some (-1))).2 = some AnimError.typeError := by
  decide

/-- C3 (amended): for an absent or non-negative index argument on an
active sequence with at least one frame, setAnimationFrame stores
exactly the truncating remainder of the argument by the frame count,
which lies in the valid half-open range. -/
theorem c3_nonneg_index_in_range (s : AnimationSheet) (addr : Nat) (q : AnimSeq)
    (idxArg : Option Int)
    (h1 : s.current = some addr) (h2 : heapGet s.seqHeap addr = some q)
    (hlen : 0 < q.length) (harg : 0 ≤ jsOrZero idxArg) :
    heapGet (setAnimationFrame s idxArg).1.seqHeap addr =
      some { q with idx := jsRem (jsOrZero idxArg) (q.length : Int) } ∧
    0 ≤ jsRem (jsOrZero idxArg) (q.length : Int) ∧
    jsRem (jsOrZero idxArg) (q.length : Int) < (q.length : Int) := by
  have hlt : addr < s.seqHeap.length := heapGet_lt h2
  refine ⟨?_, jsRem_nonneg _ harg, jsRem_lt_of_pos _ (by omega)⟩
  rcases hm : listGetInt q.frame (jsRem (jsOrZero idxArg) (q.length : Int))
    with _ | g
  · simp only [setAnimationFrame, h1, h2, hm, heapGet_set_self hlt]
  · cases g with
    | none => simp only [setAnimationFrame, h1, h2, hm, heapGet_set_self hlt]
    | some f =>
      simp only [setAnimationFrame, h1, h2, hm, applyFrameGeom,
        heapGet_set_self hlt]

/-- C3 witness: the amended theorem instantiated with argument 7 on the
three-frame sheet (7 mod 3 = 1). -/
theorem c3_witness :
    heapGet (setAnimationFrame sheet3 (some 7)).1.seqHeap 0 =
      some { defaultSeq3 with
               idx := jsRem (jsOrZero (some 7)) (defaultSeq3.length : Int) } ∧
    0 ≤ jsRem (jsOrZero (some 7)) (defaultSeq3.length : Int) ∧
    jsRem (jsOrZero (some 7)) (defaultSeq3.length : Int) < (defaultSeq3.length : Int) :=
  c3_nonneg_index_in_range sheet3 0 defaultSeq3 (some 7) rfl rfl (by decide)
    (by decide)

/-! ## C4: paused or single-frame ticks are no-ops -/

/-- C4: when the sheet is paused or the active strip has at most one
frame, a tick of any delta is a complete no-op returning false — the
state (so currentIndex and remainingMs) is unchanged and the delta is
discarded, for any number of consecutive ticks. -/
theorem c4_paused_or_single_frame_noop (s : AnimationSheet) (addr : Nat)
    (q : AnimSeq)
    (h1 : s.current = some addr) (h2 : heapGet s.seqHeap addr = some q)
    (h3 : s.animationpause = true ∨ q.length ≤ 1) :
    (∀ dt : Int, update s dt = (s, UpdResult.ret false)) ∧
    (∀ dts : List Int, runTicks s dts = (s, dts.map (fun _ => UpdResult.ret false))) := by
  have hstep : ∀ dt : Int, update s dt = (s, UpdResult.ret false) :=
    fun dt => update_skip s addr q dt h1 h2 h3
  refine ⟨hstep, ?_⟩
  intro dts
  induction dts with
  | nil => rfl
  | cons d dts ih => simp [runTicks, hstep d, ih]

/-- C4 witness: two large ticks on a one-frame sheet change nothing and
return false both times. -/
theorem c4_witness :
    runTicks oneSheet [250, 250] =
      (oneSheet, ([250, 250] : List Int).map (fun _ => UpdResult.ret false)) :=
  (c4_paused_or_single_frame_noop oneSheet 0 oneSeq rfl rfl
    (Or.inr (by decide))).2 [250, 250]


/-- C5 witness: the hold theorem instantiated on the concrete two-frame
sheet, entering the hold with tick(100) and staying in it over tick(50). -/
theorem c5_witness :
    (runTicks holdSheet ((100 : Int) :: [50])).2 =
      ((100 : Int) :: [50]).map (fun _ => UpdResult.ret false) ∧
    ∃ fr, listGetInt holdSeq.frame ((holdSeq.length : Int) - 1) = some (some fr) ∧
      (runTicks holdSheet ((100 : Int) :: [50])).1.offset = fr.offset ∧
      (runTicks holdSheet ((100 : Int) :: [50])).1.width = fr.width ∧
      (runTicks holdSheet ((100 : Int) :: [50])).1.height = fr.height ∧
      (runTicks holdSheet ((100 : Int) :: [50])).1.sourceAngle = fr.angle ∧
      (runTicks holdSheet ((100 : Int) :: [50])).1.current = some 0 ∧
      (runTicks holdSheet ((100 : Int) :: [50])).1.resetAnim =
        ResetPolicy.callback (fun _ => false) ∧
      ∃ q2, heapGet (runTicks holdSheet ((100 : Int) :: [50])).1.seqHeap 0 = some q2 ∧
        q2.frame = holdSeq.frame ∧ q2.length = holdSeq.length ∧
        q2.idx = (holdSeq.length : Int) - 1 ∧ q2.nextFrame ≤ 0 :=
  c5_callback_false_holds_last_frame holdSheet 0 holdSeq (fun _ => false) 100 [50]
    rfl rfl rfl rfl (fun _ => rfl) (by decide) (by decide) (by decide) (by decide)
    (by decide) (by decide)

/-- C10 witness: over the entry tick and two further ticks of the
concrete hold scenario, the callback counter grows by three. -/
theorem c10_witness :
    (runTicks holdSheet ((100 : Int) :: [50, 50])).1.cbCalls =
      holdSheet.cbCalls + ((100 : Int) :: [50, 50]).length :=
  c10_callback_fires_once_per_tick holdSheet 0 holdSeq (fun _ => false) 100 [50, 50]
    rfl rfl rfl rfl (fun _ => rfl) (by decide) (by decide) (by decide) (by decide)
    (by decide) (by decide)

/-! ## Lemmas about addAnimation frame resolution -/

theorem assocGet_assocSet (l : List (String × Nat)) (name : String) (a : Nat) :
    assocGet (assocSet l name a) name = some a := by
  induction l with
  | nil => simp [assocGet, assocSet]
  | cons kv l ih =>
    obtain ⟨k, v⟩ := kv
    by_cases hk : k = name
    · simp [assocSet, hk, assocGet]
    · simp [assocSet, hk, assocGet, ih]

theorem heapGet_set_append_self (h : List AnimSeq) (x v : AnimSeq) :
    heapGet (heapSet (h ++ [x]) h.length v) h.length = some v :=
  heapGet_set_self (by simp) v

theorem listGetInt_ofNat (l : List FrameDescriptor) (j : Nat) :
    listGetInt l (Int.ofNat j) = l[j]? := by
  have h : (0 : Int) ≤ Int.ofNat j := Int.ofNat_nonneg j
  simp [listGetInt, h, Int.toNat_ofNat]

theorem resolveRefs_map_num (atlas : List FrameDescriptor)
    (ind : Option (List (String × Int))) (js : List Nat) :
    resolveRefs atlas ind (js.map (fun j => FrameRef.num (Int.ofNat j))) =
      (js.map (fun j => atlas[j]?), Option.none) := by
  induction js with
  | nil => rfl
  | cons j js ih =>
    simp only [List.map_cons, resolveRefs, resolveRef, listGetInt_ofNat, ih]

theorem range_map_getElem (l : List FrameDescriptor) :
    (List.range l.length).map (fun j => l[j]?) = l.map some := by
  induction l with
  | nil => rfl
  | cons a l ih =>
    rw [List.length_cons, List.range_succ_eq_map, List.map_cons, List.map_map]
    simp only [List.getElem?_cons_zero, List.map_cons]
    congr 1
    rw [← ih]
    apply List.map_congr_left
    intro j hj
    simp [List.getElem?_cons_succ]

theorem resolveRefs_snd_noind (atlas : List FrameDescriptor)
    (refs : List FrameRef) :
    (resolveRefs atlas Option.none refs).2 =
      if refs.any FrameRef.isStr then some AnimError.stringIndexUnsupported
      else Option.none := by
  induction refs with
  | nil => rfl
  | cons r refs ih =>
    match r with
    | .num n => simp [resolveRefs, resolveRef, List.any_cons, FrameRef.isStr, ih]
    | .str t => simp [resolveRefs, resolveRef, List.any_cons, FrameRef.isStr]

theorem resolveRefs_snd_ind (atlas : List FrameDescriptor)
    (m : List (String × Int)) (refs : List FrameRef) :
    (resolveRefs atlas (some m) refs).2 = Option.none := by
  induction refs with
  | nil => rfl
  | cons r refs ih =>
    match r with
    | .num n => simp [resolveRefs, resolveRef, ih]
    | .str t =>
      simp only [resolveRefs, resolveRef]
      cases assocGetI m t <;> simp [ih]

theorem addAnimation_snd (s : AnimationSheet) (name : String)
    (index : Option (List FrameRef)) (aspeed : Option Int) :
    (addAnimation s name index aspeed).2 =
      (resolveRefs s.textureAtlas s.atlasIndices (effIndex s index)).2 := by
  unfold addAnimation
  rcases h : resolveRefs s.textureAtlas s.atlasIndices (effIndex s index)
    with ⟨fs, e⟩
  cases e <;> simp [h]

theorem resolveRefs_prefix_err (atlas : List FrameDescriptor) (nm : String)
    (rest : List FrameRef) :
    ∀ pre : List FrameRef, (∀ r ∈ pre, r.isStr = false) →
    resolveRefs atlas Option.none (pre ++ FrameRef.str nm :: rest) =
      (pre.map (resolveOk atlas), some AnimError.stringIndexUnsupported) := by
  intro pre
  induction pre with
  | nil => intro _; rfl
  | cons r pre ih =>
    intro hpre
    have hr := hpre r (List.mem_cons_self r pre)
    match r with
    | .num n =>
      have ih2 := ih (fun x hx => hpre x (List.mem_cons_of_mem _ hx))
      simp [resolveRefs, resolveRef, resolveOk, ih2]
    | .str t => simp [FrameRef.isStr] at hr


/-! ## C6: the default all-frames sequence -/

/-- C6 counterexample: an explicitly empty frameIndices list is not the
same as an absent one — addAnimation("x", []) succeeds but stores a
sequence with zero frames, not the three atlas frames, violating the
claimed length of at least 1. -/
theorem c6_counterexample :
    (addAnimation sheet3 "x" (some []) Option.none).2 = Option.none ∧
    ((assocGet (addAnimation sheet3 "x" (some []) Option.none).1.anim "x").bind
        (heapGet (addAnimation sheet3 "x" (some []) Option.none).1.seqHeap)).map
        (fun q => q.frame.length) = some 0 ∧
    sheet3.textureAtlas.length = 3 := by
  decide

/-- C6 (amended): an absent (null or undefined) frameIndices argument
stores under the given name a sequence containing every frame of the
atlas in atlas order — so its length is the atlas size, and is at least
1 exactly when the atlas is non-empty.  An explicitly empty list instead
stores an empty sequence. -/
theorem c6_null_index_spans_atlas (s : AnimationSheet) (name : String)
    (aspeed : Option Int) :
    (addAnimation s name Option.none aspeed).2 = Option.none ∧
    assocGet (addAnimation s name Option.none aspeed).1.anim name =
      some s.seqHeap.length ∧
    heapGet (addAnimation s name Option.none aspeed).1.seqHeap s.seqHeap.length =
      some { name := name, frame := s.textureAtlas.map some, idx := 0,
             length := s.textureAtlas.length,
             animationspeed := jsOrDefault aspeed s.animationspeed,
             nextFrame := 0 } := by
  have hres : resolveRefs s.textureAtlas s.atlasIndices
      (effIndex s Option.none) = (s.textureAtlas.map some, Option.none) := by
    show resolveRefs s.textureAtlas s.atlasIndices
      ((List.range s.textureAtlas.length).map
        (fun j => FrameRef.num (Int.ofNat j))) = _
    rw [resolveRefs_map_num, range_map_getElem]
  refine ⟨?_, ?_, ?_⟩ <;>
    simp only [addAnimation, hres, assocGet_assocSet, heapGet_set_append_self,
      List.length_map]

/-! ## C7: unknown sequence names -/

/-- Helper: setAnimationFrame can only fail with a TypeError, never with
a not-defined error. -/
theorem setAnimationFrame_snd (s : AnimationSheet) (arg : Option Int) :
    (setAnimationFrame s arg).2 = Option.none ∨
    (setAnimationFrame s arg).2 = some AnimError.typeError := by
  rcases h1 : s.current with _ | addr
  · right; simp [setAnimationFrame, h1]
  · rcases h2 : heapGet s.seqHeap addr with _ | q
    · right; simp [setAnimationFrame, h1, h2]
    · rcases hm : listGetInt q.frame (jsRem (jsOrZero arg) (q.length : Int))
        with _ | g
      · right; simp [setAnimationFrame, h1, h2, hm]
      · cases g with
        | none => right; simp [setAnimationFrame, h1, h2, hm]
        | some f => left; simp [setAnimationFrame, h1, h2, hm]

/-- Helper: on a defined name, setCurrentAnimation either succeeds or
throws a TypeError from a dead reference or missing frame — it never
reports the name as undefined. -/
theorem setCurrentAnimation_snd_defined (s : AnimationSheet) (name : String)
    (p : ResetPolicy) (addr : Nat) (hc : assocGet s.anim name = some addr) :
    (setCurrentAnimation s name p).2 = Option.none ∨
    (setCurrentAnimation s name p).2 = some AnimError.typeError := by
  simp only [setCurrentAnimation, hc]
  rcases h2 : heapGet s.seqHeap addr with _ | q
  · simp only [h2]
    right
    trivial
  · simp only [h2]
    rcases hsf : setAnimationFrame
        { s with current := some addr, resetAnim := normPolicy p }
        (some q.idx) with ⟨s2, e⟩
    rcases e with _ | err
    · simp only [hsf]
      rcases h3 : heapGet s2.seqHeap addr with _ | q2
      · simp only [h3]
        right
        trivial
      · simp only [h3]
        left
        trivial
    · simp only [hsf]
      have hk := setAnimationFrame_snd
        { s with current := some addr, resetAnim := normPolicy p } (some q.idx)
      rw [hsf] at hk
      rcases hk with hk | hk
      · exact Option.noConfusion hk
      · right
        simpa using hk

/-- C7: setCurrentAnimation fails with the not-defined error exactly
when the requested name has no binding in the animation map, and in that
case the state is returned untouched — no fallback animation is
substituted. -/
theorem c7_unknown_sequence_error (s : AnimationSheet) (name : String)
    (p : ResetPolicy) :
    ((setCurrentAnimation s name p).2 = some (AnimError.notDefined name) ↔
      assocGet s.anim name = Option.none) ∧
    (assocGet s.anim name = Option.none →
      setCurrentAnimation s name p = (s, some (AnimError.notDefined name))) := by
  rcases hc : assocGet s.anim name with _ | addr
  · exact ⟨⟨fun _ => rfl, fun _ => by simp [setCurrentAnimation, hc]⟩,
      fun _ => by simp [setCurrentAnimation, hc]⟩
  · refine ⟨⟨fun h => ?_, fun h => by simp [hc] at h⟩,
      fun h => by simp [hc] at h⟩
    rcases setCurrentAnimation_snd_defined s name p addr hc with h2 | h2 <;>
      rw [h] at h2 <;> simp at h2

/-- C7 witness: the characterization instantiated on the fresh sheet
for an undefined name. -/
theorem c7_witness :
    setCurrentAnimation sheet3 "nope" ResetPolicy.none =
      (sheet3, some (AnimError.notDefined "nope")) :=
  (c7_unknown_sequence_error sheet3 "nope" ResetPolicy.none).2 (by decide)


/-! ## C8: string references against a plain spritesheet -/

/-- C8: defineSequence throws the unsupported-lookup error exactly when
the given frame list contains a name reference and the sheet has no
by-name table; and a purely ordinal frame list never raises any error at
all. -/
theorem c8_string_ref_requires_atlas (s : AnimationSheet) (name : String)
    (refs : List FrameRef) (aspeed : Option Int) :
    ((addAnimation s name (some refs) aspeed).2 =
        some AnimError.stringIndexUnsupported ↔
      s.atlasIndices = Option.none ∧ refs.any FrameRef.isStr = true) ∧
    ((∀ r ∈ refs, r.isStr = false) →
      (addAnimation s name (some refs) aspeed).2 = Option.none) := by
  have hs : effIndex s (some refs) = refs := rfl
  rw [addAnimation_snd, hs]
  rcases hat : s.atlasIndices with _ | m
  · rw [resolveRefs_snd_noind]
    constructor
    · by_cases ha : refs.any FrameRef.isStr
      · simp [ha]
      · simp [ha]
    · intro hall
      have hfa : refs.any FrameRef.isStr = false := by
        rw [List.any_eq_false]
        intro r hr
        simp [hall r hr]
      simp [hfa]
  · rw [resolveRefs_snd_ind]
    exact ⟨by simp, fun _ => rfl⟩

/-- C8 witness: the characterization instantiated on the plain
three-frame sheet — a name-based reference throws, an ordinal-only list
does not. -/
theorem c8_witness :
    (addAnimation sheet3 "s" (some [FrameRef.str "head"]) Option.none).2 =
      some AnimError.stringIndexUnsupported ∧
    (addAnimation sheet3 "o" (some [FrameRef.num 0, FrameRef.num 2]) Option.none).2 =
      Option.none :=
  ⟨(c8_string_ref_requires_atlas sheet3 "s" [FrameRef.str "head"] Option.none).1.mpr
      ⟨rfl, by decide⟩,
    (c8_string_ref_requires_atlas sheet3 "o" [FrameRef.num 0, FrameRef.num 2]
      Option.none).2 (by decide)⟩

/-! ## C9: the mapping update is not rolled back on error -/

/-- C9: when defineSequence fails on a name reference without a by-name
table, the animation map already holds a fresh entry under the given
name (any prior binding overwritten) whose frame list is exactly the
prefix resolved before the failing reference, and whose cached length
was never updated. -/
theorem c9_partial_entry_on_error (s : AnimationSheet) (name : String)
    (pre : List FrameRef) (nm : String) (rest : List FrameRef)
    (aspeed : Option Int)
    (hatlas : s.atlasIndices = Option.none)
    (hpre : ∀ r ∈ pre, r.isStr = false) :
    (addAnimation s name (some (pre ++ FrameRef.str nm :: rest)) aspeed).2 =
      some AnimError.stringIndexUnsupported ∧
    assocGet (addAnimation s name
        (some (pre ++ FrameRef.str nm :: rest)) aspeed).1.anim name =
      some s.seqHeap.length ∧
    heapGet (addAnimation s name
        (some (pre ++ FrameRef.str nm :: rest)) aspeed).1.seqHeap
        s.seqHeap.length =
      some { name := name, frame := pre.map (resolveOk s.textureAtlas),
             idx := 0, length := 0,
             animationspeed := jsOrDefault aspeed s.animationspeed,
             nextFrame := 0 } := by
  have hres : resolveRefs s.textureAtlas s.atlasIndices
      (effIndex s (some (pre ++ FrameRef.str nm :: rest))) =
      (pre.map (resolveOk s.textureAtlas),
        some AnimError.stringIndexUnsupported) := by
    rw [show effIndex s (some (pre ++ FrameRef.str nm :: rest)) =
        pre ++ FrameRef.str nm :: rest from rfl, hatlas]
    exact resolveRefs_prefix_err s.textureAtlas nm rest pre hpre
  refine ⟨?_, ?_, ?_⟩ <;>
    simp only [addAnimation, hres, assocGet_assocSet, heapGet_set_append_self]

/-- C9 witness: redefining the already bound "default" on the plain
sheet with a list whose second entry is a name reference throws, yet
leaves a fresh one-frame entry bound under "default". -/
theorem c9_witness :
    (addAnimation sheet3 "default"
        (some ([FrameRef.num 1] ++ FrameRef.str "x" :: [])) Option.none).2 =
      some AnimError.stringIndexUnsupported ∧
    assocGet (addAnimation sheet3 "default"
        (some ([FrameRef.num 1] ++ FrameRef.str "x" :: [])) Option.none).1.anim
        "default" =
      some sheet3.seqHeap.length ∧
    heapGet (addAnimation sheet3 "default"
        (some ([FrameRef.num 1] ++ FrameRef.str "x" :: [])) Option.none).1.seqHeap
        sheet3.seqHeap.length =
      some { name := "default",
             frame := [FrameRef.num 1].map (resolveOk sheet3.textureAtlas),
             idx := 0, length := 0,
             animationspeed := jsOrDefault Option.none sheet3.animationspeed,
             nextFrame := 0 } :=
  c9_partial_entry_on_error sheet3 "default" [FrameRef.num 1] "x" [] Option.none
    rfl (by decide)

end MelonAnim
